import Mathlib

/-!
Shallow embedding of the LS-8 CPU emulator (`ls8/cpu.py`) and proofs about it.

The Python source stores heterogeneous values in its register file and RAM:
ordinary integers, the string produced by `bin(flag)` in the CMP handler, and
the float produced by true division in the DIV handler.  We model a Python
value as `PyVal` (floats are modelled exactly as rationals; `int / int` in
Python 3 is true division, and every division performed by the emulator stays
within exactly representable rationals in the states our theorems touch).

Python list indexing (negative indices wrap from the end, out-of-range raises
`IndexError`) is modelled by `normIdx` / `pyGet` / `pySet`.  Fallible Python
expressions are modelled in `Except String`, the error string naming the
exception class Python would raise.

One deliberate simplification: the source occasionally assigns a register
value to `self.pc` (JMP/CALL/RET).  In Python a non-integer lands in `pc` and
the `TypeError` is raised at the *next* `ram[pc]` fetch; here `pc : Int` and
the same `TypeError` is raised at the assignment itself.  No observable
behaviour of `run` other than the timing of that crash is affected.
-/

set_option maxRecDepth 100000

namespace LS8

/-- A Python value as used by the emulator: an int, a str, or a float
(modelled as an exact rational). -/
inductive PyVal where
  | intV (n : Int)
  | strV (s : String)
  | floatV (q : Rat)
deriving DecidableEq

/-- Normalize a Python list index for a list of length `L`: indices in
`[0, L)` are used directly, indices in `[-L, 0)` wrap from the end, anything
else is out of range. -/
def normIdx (L : Nat) (i : Int) : Option Nat :=
  if 0 ≤ i ∧ i < (L : Int) then some i.toNat
  else if -(L : Int) ≤ i ∧ i < 0 then some (i + (L : Int)).toNat
  else none

/-- Python list read `xs[i]` (raises `IndexError` when out of range). -/
def pyGet (xs : List PyVal) (i : Int) : Except String PyVal :=
  match normIdx xs.length i with
  | some n =>
    match xs[n]? with
    | some v => .ok v
    | none => .error "IndexError"
  | none => .error "IndexError"

/-- Python list write `xs[i] = v` (raises `IndexError` when out of range). -/
def pySet (xs : List PyVal) (i : Int) (v : PyVal) : Except String (List PyVal) :=
  match normIdx xs.length i with
  | some n => .ok (xs.set n v)
  | none => .error "IndexError"

/-- Using a value as a Python list index requires an int (`TypeError`
otherwise). -/
def asInt : PyVal → Except String Int
  | .intV n => .ok n
  | _ => .error "TypeError"

/-- Python `+` on the values the emulator can hold. -/
def pyAdd : PyVal → PyVal → Except String PyVal
  | .intV a, .intV b => .ok (.intV (a + b))
  | .intV a, .floatV b => .ok (.floatV ((a : Rat) + b))
  | .floatV a, .intV b => .ok (.floatV (a + (b : Rat)))
  | .floatV a, .floatV b => .ok (.floatV (a + b))
  | .strV a, .strV b => .ok (.strV (a ++ b))
  | _, _ => .error "TypeError"

/-- Python `-` on the values the emulator can hold. -/
def pySub : PyVal → PyVal → Except String PyVal
  | .intV a, .intV b => .ok (.intV (a - b))
  | .intV a, .floatV b => .ok (.floatV ((a : Rat) - b))
  | .floatV a, .intV b => .ok (.floatV (a - (b : Rat)))
  | .floatV a, .floatV b => .ok (.floatV (a - b))
  | _, _ => .error "TypeError"

/-- Python `*` on the values the emulator can hold (string repetition
included). -/
def pyMul : PyVal → PyVal → Except String PyVal
  | .intV a, .intV b => .ok (.intV (a * b))
  | .intV a, .floatV b => .ok (.floatV ((a : Rat) * b))
  | .floatV a, .intV b => .ok (.floatV (a * (b : Rat)))
  | .floatV a, .floatV b => .ok (.floatV (a * b))
  | .strV a, .intV n => .ok (.strV (String.join (List.replicate n.toNat a)))
  | .intV n, .strV a => .ok (.strV (String.join (List.replicate n.toNat a)))
  | _, _ => .error "TypeError"

/-- Python 3 `/` (true division). -/
def pyDiv : PyVal → PyVal → Except String PyVal
  | .intV a, .intV b =>
    if b = 0 then .error "ZeroDivisionError" else .ok (.floatV ((a : Rat) / (b : Rat)))
  | .intV a, .floatV b =>
    if b = 0 then .error "ZeroDivisionError" else .ok (.floatV ((a : Rat) / b))
  | .floatV a, .intV b =>
    if b = 0 then .error "ZeroDivisionError" else .ok (.floatV (a / (b : Rat)))
  | .floatV a, .floatV b =>
    if b = 0 then .error "ZeroDivisionError" else .ok (.floatV (a / b))
  | _, _ => .error "TypeError"

/-- Python `%`: on ints it is floor-modulus (`Int.fmod`), on floats the
analogous `a - b * floor (a / b)`. -/
def pyMod : PyVal → PyVal → Except String PyVal
  | .intV a, .intV b =>
    if b = 0 then .error "ZeroDivisionError" else .ok (.intV (Int.fmod a b))
  | .intV a, .floatV b =>
    if b = 0 then .error "ZeroDivisionError"
    else .ok (.floatV ((a : Rat) - b * ((((a : Rat) / b).floor : Int) : Rat)))
  | .floatV a, .intV b =>
    if b = 0 then .error "ZeroDivisionError"
    else .ok (.floatV (a - (b : Rat) * (((a / (b : Rat)).floor : Int) : Rat)))
  | .floatV a, .floatV b =>
    if b = 0 then .error "ZeroDivisionError"
    else .ok (.floatV (a - b * (((a / b).floor : Int) : Rat)))
  | _, _ => .error "TypeError"

/-- Python `&` (ints only in this program; `Int.land` is two's-complement,
matching Python's semantics on negative ints). -/
def pyAnd : PyVal → PyVal → Except String PyVal
  | .intV a, .intV b => .ok (.intV (Int.land a b))
  | _, _ => .error "TypeError"

/-- Python `|`. -/
def pyOr : PyVal → PyVal → Except String PyVal
  | .intV a, .intV b => .ok (.intV (Int.lor a b))
  | _, _ => .error "TypeError"

/-- Python `^`. -/
def pyXor : PyVal → PyVal → Except String PyVal
  | .intV a, .intV b => .ok (.intV (Int.xor a b))
  | _, _ => .error "TypeError"

/-- Python unary `~` (two's complement: `~a = -a - 1`). -/
def pyInvert : PyVal → Except String PyVal
  | .intV a => .ok (.intV (Int.lnot a))
  | _ => .error "TypeError"

/-- Python `<<` (a negative shift count raises `ValueError`). -/
def pyShl : PyVal → PyVal → Except String PyVal
  | .intV a, .intV b =>
    if b < 0 then .error "ValueError" else .ok (.intV (a * 2 ^ b.toNat))
  | _, _ => .error "TypeError"

/-- Python `>>` (arithmetic right shift; a negative count raises
`ValueError`). -/
def pyShr : PyVal → PyVal → Except String PyVal
  | .intV a, .intV b =>
    if b < 0 then .error "ValueError" else .ok (.intV (Int.shiftRight a b.toNat))
  | _, _ => .error "TypeError"

/-- Python `<` on the values the emulator can hold (mixed int/str raises
`TypeError`). -/
def pyLt : PyVal → PyVal → Except String Bool
  | .intV a, .intV b => .ok (decide (a < b))
  | .intV a, .floatV b => .ok (decide ((a : Rat) < b))
  | .floatV a, .intV b => .ok (decide (a < (b : Rat)))
  | .floatV a, .floatV b => .ok (decide (a < b))
  | .strV a, .strV b => .ok (decide (a < b))
  | _, _ => .error "TypeError"

/-- Python `>`. -/
def pyGt : PyVal → PyVal → Except String Bool
  | .intV a, .intV b => .ok (decide (b < a))
  | .intV a, .floatV b => .ok (decide (b < (a : Rat)))
  | .floatV a, .intV b => .ok (decide ((b : Rat) < a))
  | .floatV a, .floatV b => .ok (decide (b < a))
  | .strV a, .strV b => .ok (decide (b < a))
  | _, _ => .error "TypeError"

/-- Python `==` never raises; values of different (non-numeric) kinds are
simply unequal. -/
def pyEqB : PyVal → PyVal → Bool
  | .intV a, .intV b => decide (a = b)
  | .intV a, .floatV b => decide ((a : Rat) = b)
  | .floatV a, .intV b => decide (a = (b : Rat))
  | .floatV a, .floatV b => decide (a = b)
  | .strV a, .strV b => decide (a = b)
  | _, _ => false

/-- Binary digit string of a natural number, as Python's `bin` produces after
the `0b` prefix. -/
def natBinString (n : Nat) : String := String.mk (Nat.toDigits 2 n)

/-- Python `bin`: `bin(5) = "0b101"`, `bin(0) = "0b0"`, negatives get a
leading minus. -/
def pyBin (n : Int) : String :=
  if n < 0 then "-0b" ++ natBinString n.natAbs else "0b" ++ natBinString n.toNat

/-- Accumulator pass of base-2 parsing: accepts only `0`/`1` digits. -/
def parseBinCore : List Char → Nat → Option Nat
  | [], acc => some acc
  | '0' :: rest, acc => parseBinCore rest (2 * acc)
  | '1' :: rest, acc => parseBinCore rest (2 * acc + 1)
  | _, _ => none

/-- Drop an optional `0b`/`0B` prefix. -/
def stripBinPrefixChars : List Char → List Char
  | '0' :: 'b' :: rest => rest
  | '0' :: 'B' :: rest => rest
  | cs => cs

/-- Python `int(x, 2)`: requires a string (`TypeError` on an int or float —
this is exactly the crash the jump handlers hit on the integer-initialized
flags register), then parses an optional sign, an optional `0b` prefix and a
nonempty run of binary digits (`ValueError` otherwise).  Underscore digit
separators, which never occur in this program, are not modelled. -/
def pyIntBase2 : PyVal → Except String Int
  | .strV s =>
    let cs := s.trim.data
    let signed : Int × List Char :=
      match cs with
      | '-' :: rest => (-1, rest)
      | '+' :: rest => (1, rest)
      | _ => (1, cs)
    match stripBinPrefixChars signed.2 with
    | [] => .error "ValueError"
    | cs' =>
      match parseBinCore cs' 0 with
      | some n => .ok (signed.1 * (n : Int))
      | none => .error "ValueError"
  | _ => .error "TypeError"

/-- Python `str()` of a value, as `print` renders it (floats print as exact
rationals here; only `PRN`/`RAM` debug output ever renders one). -/
def pvToString : PyVal → String
  | .intV n => toString n
  | .strV s => s
  | .floatV q => toString q

/-- The opcode table, in source order: symbolic name to 8-bit binary-string
encoding. -/
def OPCODES : List (String × String) := [
  ("ADD",  "10100000"),
  ("AND",  "10101000"),
  ("CALL", "01010000"),
  ("CMP",  "10100111"),
  ("DEC",  "01100110"),
  ("DIV",  "10100011"),
  ("HLT",  "00000001"),
  ("INC",  "01100101"),
  ("INT",  "01010010"),
  ("IRET", "00010011"),
  ("JEQ",  "01010101"),
  ("JGE",  "01011010"),
  ("JGT",  "01010111"),
  ("JLE",  "01011001"),
  ("JLT",  "01011000"),
  ("JMP",  "01010100"),
  ("JNE",  "01010110"),
  ("LD",   "10000011"),
  ("LDI",  "10000010"),
  ("MOD",  "10100100"),
  ("MUL",  "10100010"),
  ("NOP",  "00000000"),
  ("NOT",  "01101001"),
  ("OR",   "10101010"),
  ("POP",  "01000110"),
  ("PRA",  "01001000"),
  ("PRN",  "01000111"),
  ("PUSH", "01000101"),
  ("RAM",  "01001111"),
  ("RET",  "00010001"),
  ("SHL",  "10101100"),
  ("SHR",  "10101101"),
  ("ST",   "10000100"),
  ("SUB",  "10100001"),
  ("XOR",  "10101011")]

/-- `int(OPCODES[opcode], 2)` for the clean 8-bit strings of the table. -/
def binToNat (s : String) : Nat := (parseBinCore s.data 0).getD 0

/-- The step-counter bound `limit = 99` from the source. -/
def limit : Nat := 99

/-- Classification of an opcode byte by its high bits, as in `CPU.run`:
type 8 when bit 5 (ALU) is set, else type 9 when bit 4 (sets-PC) is set,
else the two-bit operand count. -/
def opType (n : Nat) : Nat :=
  if (n >>> 5) &&& 1 = 1 then 8
  else if (n >>> 4) &&& 1 = 1 then 9
  else n >>> 6

/-- The decode scan of `CPU.run`: find the first table entry whose numeric
encoding equals the fetched instruction value (`op_num == self.ir` is a
Python `==`, so a non-int `ir` simply never matches). -/
def decodeOp (ir : PyVal) : Option (String × Nat) :=
  (OPCODES.find? fun p => pyEqB (.intV (binToNat p.2)) ir).map
    fun p => (p.1, opType (binToNat p.2))

/-- Machine state of `CPU`: program counter, 256-cell RAM, 8 registers, the
instruction register, and the console output trace (one entry per `print`).
The never-read `mar`/`mdr` scratch registers of `__init__` are omitted. -/
structure CPUState where
  pc : Int
  ram : List PyVal
  reg : List PyVal
  ir : PyVal
  output : List String

/-- The state `CPU.__init__` builds: `pc = 0`, 256 zeroed RAM cells, eight
zeroed registers with the stack pointer (R7) at the top memory address 255,
`ir = 0`. -/
def initCPU : CPUState :=
  { pc := 0
    ram := List.replicate 256 (.intV 0)
    reg := (List.replicate 8 (.intV 0)).set 7 (.intV 255)
    ir := .intV 0
    output := [] }

/-- RAM contents after `CPU.load` writes the parsed program bytes to
consecutive addresses starting at 0 of a freshly zeroed 256-cell RAM. -/
def padProg (prog : List Int) : List PyVal :=
  (prog.map PyVal.intV) ++ List.replicate (256 - prog.length) (.intV 0)

/-- The machine just after `__init__` and `load` of the given program. -/
def loadProgram (prog : List Int) : CPUState :=
  { initCPU with ram := padProg prog }

/-- The flag word the `CMP` branch of `CPU.alu` computes: start from 0, add
the less-than bit, shift, add the greater-than bit, shift, add the equal
bit — layout `00000LGE`. -/
def cmpFlag (va vb : PyVal) : Except String Nat := do
  let l ← pyLt va vb
  let flag : Nat := (if l then 1 else 0) <<< 1
  let g ← pyGt va vb
  let flag : Nat := (flag + if g then 1 else 0) <<< 1
  .ok (flag + if pyEqB va vb then 1 else 0)

/-- The pure value of `cmpFlag` on two ints (used to state properties). -/
def cmpFlagNat (x y : Int) : Nat :=
  ((((if x < y then 1 else 0) <<< 1) + if y < x then 1 else 0) <<< 1)
    + if x = y then 1 else 0

/-- `CPU.alu`: every arithmetic/logic operation, mutating `reg[reg_a]` in
place except `CMP`, which writes `bin(flag)` — a *string* — into the flags
register R4.  `DIV`/`MOD` by zero print a diagnostic and leave all registers
untouched (the machine is *not* halted).  The operand bytes `ra`/`rb` arrive
as raw RAM values and must be ints to index the register file. -/
def alu (op : String) (ra rb : PyVal) (s : CPUState) : Except String CPUState :=
  if op = "ADD" then do
    let a ← asInt ra
    let va ← pyGet s.reg a
    let b ← asInt rb
    let vb ← pyGet s.reg b
    let r ← pyAdd va vb
    let regs ← pySet s.reg a r
    .ok { s with reg := regs }
  else if op = "AND" then do
    let a ← asInt ra
    let va ← pyGet s.reg a
    let b ← asInt rb
    let vb ← pyGet s.reg b
    let r ← pyAnd va vb
    let regs ← pySet s.reg a r
    .ok { s with reg := regs }
  else if op = "CMP" then do
    let a ← asInt ra
    let va ← pyGet s.reg a
    let b ← asInt rb
    let vb ← pyGet s.reg b
    let flag ← cmpFlag va vb
    let regs ← pySet s.reg 4 (.strV (pyBin (flag : Int)))
    .ok { s with reg := regs }
  else if op = "DEC" then do
    let a ← asInt ra
    let va ← pyGet s.reg a
    let r ← pySub va (.intV 1)
    let regs ← pySet s.reg a r
    .ok { s with reg := regs }
  else if op = "DIV" then do
    let b ← asInt rb
    let vb ← pyGet s.reg b
    if pyEqB vb (.intV 0) then
      .ok { s with output := s.output ++ ["Error: Cannot divide by 0"] }
    else do
      let a ← asInt ra
      let va ← pyGet s.reg a
      let r ← pyDiv va vb
      let regs ← pySet s.reg a r
      .ok { s with reg := regs }
  else if op = "INC" then do
    let a ← asInt ra
    let va ← pyGet s.reg a
    let r ← pyAdd va (.intV 1)
    let regs ← pySet s.reg a r
    .ok { s with reg := regs }
  else if op = "MOD" then do
    let b ← asInt rb
    let vb ← pyGet s.reg b
    if pyEqB vb (.intV 0) then
      .ok { s with output := s.output ++ ["Error: Cannot divide by 0"] }
    else do
      let a ← asInt ra
      let va ← pyGet s.reg a
      let r ← pyMod va vb
      let regs ← pySet s.reg a r
      .ok { s with reg := regs }
  else if op = "MUL" then do
    let a ← asInt ra
    let va ← pyGet s.reg a
    let b ← asInt rb
    let vb ← pyGet s.reg b
    let r ← pyMul va vb
    let regs ← pySet s.reg a r
    .ok { s with reg := regs }
  else if op = "NOT" then do
    let a ← asInt ra
    let va ← pyGet s.reg a
    let r ← pyInvert va
    let regs ← pySet s.reg a r
    .ok { s with reg := regs }
  else if op = "OR" then do
    let a ← asInt ra
    let va ← pyGet s.reg a
    let b ← asInt rb
    let vb ← pyGet s.reg b
    let r ← pyOr va vb
    let regs ← pySet s.reg a r
    .ok { s with reg := regs }
  else if op = "SHL" then do
    let a ← asInt ra
    let va ← pyGet s.reg a
    let b ← asInt rb
    let vb ← pyGet s.reg b
    let r ← pyShl va vb
    let regs ← pySet s.reg a r
    .ok { s with reg := regs }
  else if op = "SHR" then do
    let a ← asInt ra
    let va ← pyGet s.reg a
    let b ← asInt rb
    let vb ← pyGet s.reg b
    let r ← pyShr va vb
    let regs ← pySet s.reg a r
    .ok { s with reg := regs }
  else if op = "SUB" then do
    let a ← asInt ra
    let va ← pyGet s.reg a
    let b ← asInt rb
    let vb ← pyGet s.reg b
    let r ← pySub va vb
    let regs ← pySet s.reg a r
    .ok { s with reg := regs }
  else if op = "XOR" then do
    let a ← asInt ra
    let va ← pyGet s.reg a
    let b ← asInt rb
    let vb ← pyGet s.reg b
    let r ← pyXor va vb
    let regs ← pySet s.reg a r
    .ok { s with reg := regs }
  else .error "Exception: Unsupported ALU operation"

/-- Reading an operand address from the handler's `*args` tuple; a missing
argument is Python's `IndexError: tuple index out of range`. -/
def argGet (args : List Int) (i : Nat) : Except String Int :=
  match args[i]? with
  | some a => .ok a
  | none => .error "IndexError"

/-- The `JMP` branch of `CPU.OPS`: read the operand register index from
`ram[pc + 1]` and set `pc` to that register's value.  The conditional jumps
delegate here, mirroring the source's recursive `self.OPS("JMP")` call
(whose empty `args` the handler never touches). -/
def OPS_JMP (s : CPUState) : Except String CPUState := do
  let rv ← pyGet s.ram (s.pc + 1)
  let r ← asInt rv
  let tv ← pyGet s.reg r
  let t ← asInt tv
  .ok { s with pc := t }

/-- The `CALL` branch of `CPU.OPS`: decrement SP (R7), store `pc + 2` at the
new SP, then jump to the address held in the operand register. -/
def OPS_CALL (s : CPUState) : Except String CPUState := do
  let spv ← pyGet s.reg 7
  let spv' ← pySub spv (.intV 1)
  let regs ← pySet s.reg 7 spv'
  let s := { s with reg := regs }
  let spi ← asInt spv'
  let ram' ← pySet s.ram spi (.intV (s.pc + 2))
  let s := { s with ram := ram' }
  let rv ← pyGet s.ram (s.pc + 1)
  let r ← asInt rv
  let tv ← pyGet s.reg r
  let t ← asInt tv
  .ok { s with pc := t }

/-- The `RET` branch of `CPU.OPS`: pop the return address from the stack
into `pc`, incrementing SP. -/
def OPS_RET (s : CPUState) : Except String CPUState := do
  let spv ← pyGet s.reg 7
  let spi ← asInt spv
  let ra ← pyGet s.ram spi
  let spv' ← pyAdd spv (.intV 1)
  let regs ← pySet s.reg 7 spv'
  let t ← asInt ra
  .ok { s with reg := regs, pc := t }

/-- The `JEQ` branch: `int(flag, 2) & 1 == 1` on the flags register decides
between `JMP` behaviour and `pc += 2`. -/
def OPS_JEQ (s : CPUState) : Except String CPUState := do
  let flag ← pyGet s.reg 4
  let v ← pyIntBase2 flag
  if Int.land v 1 = 1 then OPS_JMP s else .ok { s with pc := s.pc + 2 }

/-- The `JNE` branch: jump when the equal bit of `int(flag, 2)` is clear. -/
def OPS_JNE (s : CPUState) : Except String CPUState := do
  let flag ← pyGet s.reg 4
  let v ← pyIntBase2 flag
  if Int.land v 1 = 0 then OPS_JMP s else .ok { s with pc := s.pc + 2 }

/-- The `JGE` branch: first test `int(flag, 2) & 1 == 1` (short-circuit),
otherwise evaluate `flag >> 1` — which raises `TypeError` on the string the
CMP handler stored — before re-parsing. -/
def OPS_JGE (s : CPUState) : Except String CPUState := do
  let flag ← pyGet s.reg 4
  let v ← pyIntBase2 flag
  if Int.land v 1 = 1 then OPS_JMP s
  else do
    let sh ← pyShr flag (.intV 1)
    let v2 ← pyIntBase2 sh
    if Int.land v2 1 ≠ 0 then OPS_JMP s else .ok { s with pc := s.pc + 2 }

/-- The `JGT` branch: evaluates `flag >> 1` before parsing. -/
def OPS_JGT (s : CPUState) : Except String CPUState := do
  let flag ← pyGet s.reg 4
  let sh ← pyShr flag (.intV 1)
  let v ← pyIntBase2 sh
  if Int.land v 1 ≠ 0 then OPS_JMP s else .ok { s with pc := s.pc + 2 }

/-- The `JLE` branch: like `JGE` but with `flag >> 2` in the second
disjunct. -/
def OPS_JLE (s : CPUState) : Except String CPUState := do
  let flag ← pyGet s.reg 4
  let v ← pyIntBase2 flag
  if Int.land v 1 = 1 then OPS_JMP s
  else do
    let sh ← pyShr flag (.intV 2)
    let v2 ← pyIntBase2 sh
    if Int.land v2 1 ≠ 0 then OPS_JMP s else .ok { s with pc := s.pc + 2 }

/-- The `JLT` branch: evaluates `flag >> 2` before parsing. -/
def OPS_JLT (s : CPUState) : Except String CPUState := do
  let flag ← pyGet s.reg 4
  let sh ← pyShr flag (.intV 2)
  let v ← pyIntBase2 sh
  if Int.land v 1 ≠ 0 then OPS_JMP s else .ok { s with pc := s.pc + 2 }

/-- The `LD` branch, faithful to the source's use of the raw operand
*addresses* (`args[0]`, `args[1]`) as register indices. -/
def OPS_LD (args : List Int) (s : CPUState) : Except String CPUState := do
  let a0 ← argGet args 0
  let a1 ← argGet args 1
  let addrv ← pyGet s.reg a1
  let addr ← asInt addrv
  let v ← pyGet s.ram addr
  let regs ← pySet s.reg a0 v
  .ok { s with reg := regs }

/-- The `LDI` branch: register index from `ram[args[0]]`, value from
`ram[args[1]]`, stored verbatim — no 8-bit masking. -/
def OPS_LDI (args : List Int) (s : CPUState) : Except String CPUState := do
  let a0 ← argGet args 0
  let rv ← pyGet s.ram a0
  let a1 ← argGet args 1
  let v ← pyGet s.ram a1
  let r ← asInt rv
  let regs ← pySet s.reg r v
  .ok { s with reg := regs }

/-- The `POP` branch: copy `ram[SP]` into the operand register, then
increment SP (re-reading R7, which matters when the operand register *is*
R7). -/
def OPS_POP (args : List Int) (s : CPUState) : Except String CPUState := do
  let spv ← pyGet s.reg 7
  let spi ← asInt spv
  let v ← pyGet s.ram spi
  let a0 ← argGet args 0
  let rv ← pyGet s.ram a0
  let r ← asInt rv
  let regs ← pySet s.reg r v
  let s := { s with reg := regs }
  let spv2 ← pyGet s.reg 7
  let spv' ← pyAdd spv2 (.intV 1)
  let regs2 ← pySet s.reg 7 spv'
  .ok { s with reg := regs2 }

/-- The `PRN` branch: print the decimal value of the operand register. -/
def OPS_PRN (args : List Int) (s : CPUState) : Except String CPUState := do
  let a0 ← argGet args 0
  let addrv ← pyGet s.ram a0
  let addr ← asInt addrv
  let v ← pyGet s.reg addr
  .ok { s with output := s.output ++ [pvToString v] }

/-- The `PUSH` branch: decrement SP, then store the operand register's value
(read *after* the decrement, so pushing R7 pushes the new SP) at the new
SP. -/
def OPS_PUSH (args : List Int) (s : CPUState) : Except String CPUState := do
  let spv ← pyGet s.reg 7
  let spv' ← pySub spv (.intV 1)
  let regs ← pySet s.reg 7 spv'
  let s := { s with reg := regs }
  let a0 ← argGet args 0
  let rv ← pyGet s.ram a0
  let r ← asInt rv
  let v ← pyGet s.reg r
  let spi ← asInt spv'
  let ram' ← pySet s.ram spi v
  .ok { s with ram := ram' }

/-- The `ST` branch: `ram[reg[ram[args[0]]]] = reg[ram[args[1]]]`. -/
def OPS_ST (args : List Int) (s : CPUState) : Except String CPUState := do
  let a0 ← argGet args 0
  let r0v ← pyGet s.ram a0
  let r0 ← asInt r0v
  let addrv ← pyGet s.reg r0
  let a1 ← argGet args 1
  let r1v ← pyGet s.ram a1
  let r1 ← asInt r1v
  let v ← pyGet s.reg r1
  let addr ← asInt addrv
  let ram' ← pySet s.ram addr v
  .ok { s with ram := ram' }

/-- The debug `RAM` branch: print the value stored at the RAM address named
by the operand byte. -/
def OPS_RAM (args : List Int) (s : CPUState) : Except String CPUState := do
  let a0 ← argGet args 0
  let addrv ← pyGet s.ram a0
  let addr ← asInt addrv
  let v ← pyGet s.ram addr
  .ok { s with output := s.output ++ ["Value at RAM: " ++ pvToString v] }

/-- `CPU.OPS`, the non-ALU operation dispatcher, in the source's `elif`
order.  `INT`, `IRET`, `NOP` and `PRA` are `pass` bodies; an unknown name
prints a diagnostic and does nothing else. -/
def OPS (op : String) (args : List Int) (s : CPUState) : Except String CPUState :=
  if op = "CALL" then OPS_CALL s
  else if op = "INT" then .ok s
  else if op = "IRET" then .ok s
  else if op = "JEQ" then OPS_JEQ s
  else if op = "JGE" then OPS_JGE s
  else if op = "JGT" then OPS_JGT s
  else if op = "JLE" then OPS_JLE s
  else if op = "JLT" then OPS_JLT s
  else if op = "JMP" then OPS_JMP s
  else if op = "JNE" then OPS_JNE s
  else if op = "LD" then OPS_LD args s
  else if op = "LDI" then OPS_LDI args s
  else if op = "NOP" then .ok s
  else if op = "POP" then OPS_POP args s
  else if op = "PRA" then .ok s
  else if op = "PRN" then OPS_PRN args s
  else if op = "PUSH" then OPS_PUSH args s
  else if op = "RET" then OPS_RET s
  else if op = "ST" then OPS_ST args s
  else if op = "RAM" then OPS_RAM args s
  else .ok { s with output := s.output ++ ["Operation " ++ op ++ " invalid."] }

/-- Outcome of one iteration of the `while` body of `CPU.run`: the machine
either keeps running or was halted by `HLT`. -/
inductive StepResult where
  | halted (s : CPUState)
  | running (s : CPUState)

/-- One iteration of the fetch-decode-execute loop of `CPU.run`: fetch
`ram[pc]` into `ir`, scan the opcode table, then dispatch.  `HLT` prints its
marker and stops; types 0/1/2 call `OPS` with the operand *addresses* and
advance `pc` by 1/2/3; type 8 feeds the two operand bytes to the ALU and
advances by 3; type 9 (sets-PC instructions) calls `OPS` without advancing;
an unmatched byte prints a diagnostic and advances by 1. -/
def step (s0 : CPUState) : Except String StepResult := do
  let irv ← pyGet s0.ram s0.pc
  let s := { s0 with ir := irv }
  match decodeOp irv with
  | some (op, ty) =>
    if op = "HLT" then
      .ok (.halted { s with output := s.output ++ ["    ~    "] })
    else if ty = 0 then do
      let s' ← OPS op [] s
      .ok (.running { s' with pc := s'.pc + 1 })
    else if ty = 1 then do
      let s' ← OPS op [s.pc + 1] s
      .ok (.running { s' with pc := s'.pc + 2 })
    else if ty = 2 then do
      let s' ← OPS op [s.pc + 1, s.pc + 2] s
      .ok (.running { s' with pc := s'.pc + 3 })
    else if ty = 8 then do
      let ra ← pyGet s.ram (s.pc + 1)
      let rb ← pyGet s.ram (s.pc + 2)
      let s' ← alu op ra rb s
      .ok (.running { s' with pc := s'.pc + 3 })
    else if ty = 9 then do
      let s' ← OPS op [] s
      .ok (.running s')
    else
      .ok (.running { s with
        pc := s.pc + 1
        output := s.output ++ ["Operation " ++ op ++ " type not found."] })
  | none =>
    .ok (.running { s with
      pc := s.pc + 1
      output := s.output ++ ["Unknown request on line: " ++ toString s.pc] })

/-- The `while running and i < limit` loop of `CPU.run`, with the remaining
iteration budget as fuel.  Returns the final state, the number of iterations
executed, and whether the loop ended because `HLT` set `running = False`
(`true`) or because the budget `i < limit` ran out (`false`); an uncaught
Python exception aborts the whole run as `.error`. -/
def runCount (s : CPUState) : Nat → Except String (CPUState × Nat × Bool)
  | 0 => .ok (s, 0, false)
  | f + 1 =>
    match step s with
    | .error e => .error e
    | .ok (.halted s') => .ok (s', 1, true)
    | .ok (.running s') =>
      match runCount s' f with
      | .error e => .error e
      | .ok (t, n, b) => .ok (t, n + 1, b)

/-- `CPU.run`: the loop with its hardcoded budget `limit = 99`. -/
def run (s : CPUState) : Except String (CPUState × Nat × Bool) := runCount s limit

/-! Small reasoning toolkit about the embedding. -/

theorem ok_bind {α β : Type} (a : α) (f : α → Except String β) :
    (Except.ok a >>= f) = f a := rfl

theorem error_bind {α β : Type} (e : String) (f : α → Except String β) :
    ((Except.error e : Except String α) >>= f) = .error e := rfl

theorem normIdx_nonneg {L : Nat} {i : Int} (h0 : 0 ≤ i) (h1 : i < (L : Int)) :
    normIdx L i = some i.toNat := by
  simp [normIdx, h0, h1]

theorem normIdx_lt {L : Nat} {i : Int} {n : Nat} (h : normIdx L i = some n) : n < L := by
  unfold normIdx at h
  split at h
  · next h01 => cases h; omega
  · split at h
    · next h2 => cases h; omega
    · cases h

theorem pyGet_of (xs : List PyVal) {i : Int} {n : Nat} {v : PyVal}
    (h : normIdx xs.length i = some n) (hv : xs[n]? = some v) : pyGet xs i = .ok v := by
  simp [pyGet, h, hv]

theorem pyGet_elim {xs : List PyVal} {i : Int} {v : PyVal} (h : pyGet xs i = .ok v) :
    ∃ n, normIdx xs.length i = some n ∧ xs[n]? = some v := by
  unfold pyGet at h
  split at h
  · next n heq =>
    split at h
    · next w hw =>
      cases h
      exact ⟨n, heq, hw⟩
    · cases h
  · cases h

theorem pySet_ok (xs : List PyVal) {i : Int} {n : Nat} (v : PyVal)
    (h : normIdx xs.length i = some n) : pySet xs i v = .ok (xs.set n v) := by
  simp [pySet, h]

theorem runCount_succ (s : CPUState) (f : Nat) :
    runCount s (f + 1) =
      match step s with
      | .error e => .error e
      | .ok (.halted s') => .ok (s', 1, true)
      | .ok (.running s') =>
        match runCount s' f with
        | .error e => .error e
        | .ok (t, n, b) => .ok (t, n + 1, b) := rfl

/-- The loop counter of `CPU.run` bounds the number of iterations by the
fuel, and an `.ok` result with fewer iterations than the fuel can only come
from `HLT` ending the loop. -/
theorem runCount_le (f : Nat) : ∀ (s t : CPUState) (n : Nat) (b : Bool),
    runCount s f = .ok (t, n, b) → n ≤ f ∧ (n < f → b = true) := by
  induction f with
  | zero =>
    intro s t n b h
    unfold runCount at h
    cases h
    exact ⟨Nat.le_refl 0, fun h => absurd h (by omega)⟩
  | succ f ih =>
    intro s t n b h
    rw [runCount_succ] at h
    split at h
    · cases h
    · cases h
      exact ⟨by omega, fun _ => rfl⟩
    · next s' hstep =>
      split at h
      · cases h
      · next t' n' b' hrec =>
        simp only [Except.ok.injEq, Prod.mk.injEq] at h
        obtain ⟨h1, h2, h3⟩ := h
        obtain ⟨ha, hb⟩ := ih s' t' n' b' hrec
        refine ⟨by omega, fun hlt => ?_⟩
        rw [← h3]
        exact hb (by omega)

/-! Claim theorems. -/

theorem cmpFlag_int (x y : Int) :
    cmpFlag (.intV x) (.intV y) = .ok (cmpFlagNat x y) := by
  simp [cmpFlag, pyLt, pyGt, pyEqB, cmpFlagNat, ok_bind]

theorem cmpFlagNat_cases (x y : Int) :
    (x = y ↔ cmpFlagNat x y = 1) ∧ (x < y ↔ cmpFlagNat x y = 4) ∧
      (y < x ↔ cmpFlagNat x y = 2) := by
  rcases lt_trichotomy x y with h | h | h
  · have hf : cmpFlagNat x y = 4 := by
      unfold cmpFlagNat
      rw [if_pos h, if_neg (by omega : ¬ y < x), if_neg (by omega : ¬ x = y)]
      decide
    exact ⟨iff_of_false (by omega) (by omega), iff_of_true h hf,
      iff_of_false (by omega) (by omega)⟩
  · have hf : cmpFlagNat x y = 1 := by
      unfold cmpFlagNat
      rw [if_neg (by omega : ¬ x < y), if_neg (by omega : ¬ y < x), if_pos h]
      decide
    exact ⟨iff_of_true h hf, iff_of_false (by omega) (by omega),
      iff_of_false (by omega) (by omega)⟩
  · have hf : cmpFlagNat x y = 2 := by
      unfold cmpFlagNat
      rw [if_neg (by omega : ¬ x < y), if_pos h, if_neg (by omega : ¬ x = y)]
      decide
    exact ⟨iff_of_false (by omega) (by omega), iff_of_false (by omega) (by omega),
      iff_of_true h hf⟩

theorem cmpFlagNat_no_LG (x y : Int) :
    ¬(Nat.testBit (cmpFlagNat x y) 2 ∧ Nat.testBit (cmpFlagNat x y) 1) := by
  rcases lt_trichotomy x y with h | h | h
  · rw [(cmpFlagNat_cases x y).2.1.mp h]; decide
  · rw [(cmpFlagNat_cases x y).1.mp h]; decide
  · rw [(cmpFlagNat_cases x y).2.2.mp h]; decide

/-- C3: when both operand registers hold ints, `CMP` writes the flag word
`bin(cmpFlagNat x y)` into the flags register R4 and mutates nothing else
(no other register, not the RAM, not the PC); the flag word is 1 exactly on
equality, 4 exactly on less-than, 2 exactly on greater-than — so exactly one
flag is set, the Equal flag precisely on a match, and the Less-than and
Greater-than bits are never set together. -/
theorem cmp_sets_exactly_one_flag (s : CPUState) (a b x y : Int)
    (hlen : s.reg.length = 8)
    (ha : pyGet s.reg a = .ok (.intV x)) (hb : pyGet s.reg b = .ok (.intV y)) :
    ∃ s', alu "CMP" (.intV a) (.intV b) s = .ok s' ∧
      s'.ram = s.ram ∧ s'.pc = s.pc ∧ s'.output = s.output ∧
      s'.reg[4]? = some (.strV (pyBin ((cmpFlagNat x y : Nat) : Int))) ∧
      (∀ i : Nat, i ≠ 4 → s'.reg[i]? = s.reg[i]?) ∧
      (x = y ↔ cmpFlagNat x y = 1) ∧
      (x < y ↔ cmpFlagNat x y = 4) ∧
      (y < x ↔ cmpFlagNat x y = 2) ∧
      ¬(Nat.testBit (cmpFlagNat x y) 2 ∧ Nat.testBit (cmpFlagNat x y) 1) := by
  have hn4 : normIdx s.reg.length 4 = some 4 := by rw [hlen]; rfl
  refine ⟨{ s with reg := s.reg.set 4 (.strV (pyBin ((cmpFlagNat x y : Nat) : Int))) },
    ?_, rfl, rfl, rfl, ?_, ?_, (cmpFlagNat_cases x y).1, (cmpFlagNat_cases x y).2.1,
    (cmpFlagNat_cases x y).2.2, cmpFlagNat_no_LG x y⟩
  · simp [alu, asInt, ha, hb, cmpFlag_int, pySet_ok, hn4, ok_bind]
  · exact List.getElem?_set_self (by omega)
  · intro i hi
    exact List.getElem?_set_ne (Ne.symm hi)

/-- Witness for `cmp_sets_exactly_one_flag`: comparing two registers both
holding 5. -/
theorem cmp_sets_exactly_one_flag_witness :
    ∃ s', alu "CMP" (.intV 0) (.intV 1)
        { initCPU with
          reg := [.intV 5, .intV 5, .intV 0, .intV 0, .intV 0, .intV 0, .intV 0, .intV 255] } =
        .ok s' ∧
      s'.ram = ({ initCPU with
          reg := [.intV 5, .intV 5, .intV 0, .intV 0, .intV 0, .intV 0, .intV 0, .intV 255] } :
        CPUState).ram ∧
      s'.pc = 0 ∧ s'.output = [] ∧
      s'.reg[4]? = some (.strV (pyBin ((cmpFlagNat 5 5 : Nat) : Int))) ∧
      (∀ i : Nat, i ≠ 4 → s'.reg[i]? =
        ([.intV 5, .intV 5, .intV 0, .intV 0, .intV 0, .intV 0, .intV 0, .intV 255] :
          List PyVal)[i]?) ∧
      ((5 : Int) = 5 ↔ cmpFlagNat 5 5 = 1) ∧
      ((5 : Int) < 5 ↔ cmpFlagNat 5 5 = 4) ∧
      ((5 : Int) < 5 ↔ cmpFlagNat 5 5 = 2) ∧
      ¬(Nat.testBit (cmpFlagNat 5 5) 2 ∧ Nat.testBit (cmpFlagNat 5 5) 1) :=
  cmp_sets_exactly_one_flag _ 0 1 5 5 rfl rfl rfl

/-- C6 (amended): `LDI` stores the operand value into the register verbatim
and reading it back yields exactly that value — no 8-bit wrapping is
performed anywhere in the register file. -/
theorem ldi_stores_exact_value (s : CPUState) (a0 a1 r : Int) (v : PyVal) (n : Nat)
    (ha0 : pyGet s.ram a0 = .ok (.intV r)) (ha1 : pyGet s.ram a1 = .ok v)
    (hn : normIdx s.reg.length r = some n) :
    ∃ s', OPS "LDI" [a0, a1] s = .ok s' ∧ pyGet s'.reg r = .ok v ∧
      s'.ram = s.ram ∧ s'.pc = s.pc ∧ s'.output = s.output := by
  refine ⟨{ s with reg := s.reg.set n v }, ?_, ?_, rfl, rfl, rfl⟩
  · simp [OPS, OPS_LDI, argGet, asInt, ha0, ha1, pySet_ok, hn, ok_bind]
  · exact pyGet_of _ (by rw [List.length_set]; exact hn)
      (List.getElem?_set_self (normIdx_lt hn))

/-- Witness for `ldi_stores_exact_value`: loading the out-of-byte-range
value 300 into R0. -/
theorem ldi_stores_exact_value_witness :
    ∃ s', OPS "LDI" [1, 2] { initCPU with ram := padProg [0, 0, 300] } = .ok s' ∧
      pyGet s'.reg 0 = .ok (.intV 300) ∧
      s'.ram = ({ initCPU with ram := padProg [0, 0, 300] } : CPUState).ram ∧
      s'.pc = 0 ∧ s'.output = [] :=
  ldi_stores_exact_value { initCPU with ram := padProg [0, 0, 300] } 1 2 0 (.intV 300) 0
    rfl rfl rfl

/-- C6 (counterexample to the claim as stated): after writing 300 into R0
via `LDI`, reading R0 yields 300 itself, but the claim demands
`300 mod 256 = 44` — so register values are not confined to 8 bits. -/
theorem ldi_no_eight_bit_wrap :
    OPS "LDI" [1, 2] { initCPU with ram := padProg [0, 0, 300] } =
      .ok { initCPU with
              ram := padProg [0, 0, 300]
              reg := [.intV 300, .intV 0, .intV 0, .intV 0, .intV 0, .intV 0,
                .intV 0, .intV 255] } ∧
    (300 : Int) % 256 = 44 ∧ (300 : Int) ≠ 44 :=
  ⟨rfl, by decide, by decide⟩

/-- C4: executing `CALL` at address `p = s.pc` decrements SP, stores
`p + 2` at the new SP, and sets `pc` to the operand register's value; a
later `RET` executed in any state whose SP register and stack-top cell are
unchanged from the post-CALL state sets `pc` back to exactly `p + 2` — the
instruction immediately after the CALL — and restores SP to its pre-CALL
value.  (The operand register is a general register other than SP itself,
and the pushed cell does not overwrite the operand byte.) -/
theorem call_ret_restores_pc_and_sp (s s1 s2 : CPUState) (sp r target : Int)
    (hlen : s.reg.length = 8) (hram : s.ram.length = 256)
    (hsp : pyGet s.reg 7 = .ok (.intV sp)) (hsp1 : 1 ≤ sp) (hsp255 : sp ≤ 255)
    (hpc0 : 0 ≤ s.pc + 1) (hpc256 : s.pc + 1 < 256) (hnc : sp - 1 ≠ s.pc + 1)
    (hopnd : pyGet s.ram (s.pc + 1) = .ok (.intV r))
    (hr0 : 0 ≤ r) (hr8 : r < 8) (hr7 : r ≠ 7)
    (htgt : pyGet s.reg r = .ok (.intV target))
    (hcall : OPS "CALL" [] s = .ok s1)
    (hlen2 : s2.reg.length = 8)
    (hspeq : pyGet s2.reg 7 = pyGet s1.reg 7)
    (hstk : pyGet s2.ram (sp - 1) = pyGet s1.ram (sp - 1)) :
    s1.pc = target ∧
    ∃ s3, OPS "RET" [] s2 = .ok s3 ∧ s3.pc = s.pc + 2 ∧
      pyGet s3.reg 7 = .ok (.intV sp) := by
  have hn7 : normIdx s.reg.length 7 = some 7 := by rw [hlen]; rfl
  have hnsp : normIdx s.ram.length (sp - 1) = some (sp - 1).toNat := by
    rw [hram]; exact normIdx_nonneg (by omega) (by omega)
  obtain ⟨nr, hnr, hvr⟩ := pyGet_elim htgt
  have hnr' : nr = r.toNat := by
    rw [hlen, normIdx_nonneg hr0 (by omega)] at hnr
    exact (Option.some.inj hnr).symm
  subst hnr'
  have hrget : pyGet (s.reg.set 7 (.intV (sp - 1))) r = .ok (.intV target) := by
    have h1 : normIdx (s.reg.set 7 (.intV (sp - 1))).length r = some r.toNat := by
      rw [List.length_set, hlen]; exact normIdx_nonneg hr0 (by omega)
    have h2 : (s.reg.set 7 (.intV (sp - 1)))[r.toNat]? = some (.intV target) := by
      rw [List.getElem?_set_ne (by omega : (7 : Nat) ≠ r.toNat)]
      exact hvr
    exact pyGet_of _ h1 h2
  obtain ⟨np, hnp, hvp⟩ := pyGet_elim hopnd
  have hnp' : np = (s.pc + 1).toNat := by
    rw [hram, normIdx_nonneg hpc0 (by omega)] at hnp
    exact (Option.some.inj hnp).symm
  subst hnp'
  have hopnd' : pyGet (s.ram.set (sp - 1).toNat (.intV (s.pc + 2))) (s.pc + 1) =
      .ok (.intV r) := by
    have h1 : normIdx (s.ram.set (sp - 1).toNat (.intV (s.pc + 2))).length (s.pc + 1) =
        some (s.pc + 1).toNat := by
      rw [List.length_set, hram]; exact normIdx_nonneg hpc0 (by omega)
    have h2 : (s.ram.set (sp - 1).toNat (.intV (s.pc + 2)))[(s.pc + 1).toNat]? =
        some (.intV r) := by
      rw [List.getElem?_set_ne (by omega : (sp - 1).toNat ≠ (s.pc + 1).toNat)]
      exact hvp
    exact pyGet_of _ h1 h2
  have hcall' : OPS "CALL" [] s =
      .ok { s with reg := s.reg.set 7 (.intV (sp - 1)),
                   ram := s.ram.set (sp - 1).toNat (.intV (s.pc + 2)),
                   pc := target } := by
    have hset7 : pySet s.reg 7 (.intV (sp - 1)) = .ok (s.reg.set 7 (.intV (sp - 1))) :=
      pySet_ok _ _ hn7
    have hsetram : pySet s.ram (sp - 1) (.intV (s.pc + 2)) =
        .ok (s.ram.set (sp - 1).toNat (.intV (s.pc + 2))) := pySet_ok _ _ hnsp
    rw [show OPS "CALL" [] s = OPS_CALL s from rfl]
    simp only [OPS_CALL, hsp, ok_bind, pySub, hset7, hsetram, asInt, hrget, hopnd']
  rw [hcall'] at hcall
  have hs1 : s1 = { s with reg := s.reg.set 7 (.intV (sp - 1)),
                           ram := s.ram.set (sp - 1).toNat (.intV (s.pc + 2)),
                           pc := target } := (Except.ok.inj hcall).symm
  subst hs1
  have hsp2 : pyGet s2.reg 7 = .ok (.intV (sp - 1)) := by
    rw [hspeq]
    exact pyGet_of _ (by rw [List.length_set, hlen]; rfl)
      (List.getElem?_set_self (by omega))
  have hstk2 : pyGet s2.ram (sp - 1) = .ok (.intV (s.pc + 2)) := by
    rw [hstk]
    exact pyGet_of _ (by rw [List.length_set]; exact hnsp)
      (List.getElem?_set_self (normIdx_lt hnsp))
  have hn72 : normIdx s2.reg.length 7 = some 7 := by rw [hlen2]; rfl
  have hadd : pyAdd (.intV (sp - 1)) (.intV 1) = .ok (.intV sp) := by
    show Except.ok (PyVal.intV (sp - 1 + 1)) = Except.ok (PyVal.intV sp)
    rw [show sp - 1 + 1 = sp from by omega]
  refine ⟨rfl, { s2 with reg := s2.reg.set 7 (.intV sp), pc := s.pc + 2 }, ?_, rfl, ?_⟩
  · have hset72 : pySet s2.reg 7 (.intV sp) = .ok (s2.reg.set 7 (.intV sp)) :=
      pySet_ok _ _ hn72
    rw [show OPS "RET" [] s2 = OPS_RET s2 from rfl]
    simp only [OPS_RET, hsp2, ok_bind, asInt, hstk2, hadd, hset72]
  · have h1 : normIdx (s2.reg.set 7 (.intV sp)).length 7 = some 7 := by
      rw [List.length_set, hlen2]; rfl
    exact pyGet_of _ h1 (List.getElem?_set_self (by omega))

/-- Witness for `call_ret_restores_pc_and_sp`: `CALL R2` at address 0 with
R2 = 20, followed by `RET` in the unchanged post-CALL state. -/
theorem call_ret_restores_pc_and_sp_witness :
    ({ initCPU with
        reg := [.intV 0, .intV 0, .intV 20, .intV 0, .intV 0, .intV 0, .intV 0,
          .intV 254]
        ram := (padProg [80, 2]).set 254 (.intV 2)
        pc := 20 } : CPUState).pc = 20 ∧
    ∃ s3, OPS "RET" []
        { initCPU with
          reg := [.intV 0, .intV 0, .intV 20, .intV 0, .intV 0, .intV 0, .intV 0,
            .intV 254]
          ram := (padProg [80, 2]).set 254 (.intV 2)
          pc := 20 } = .ok s3 ∧
      s3.pc = 0 + 2 ∧ pyGet s3.reg 7 = .ok (.intV 255) :=
  call_ret_restores_pc_and_sp
    { initCPU with
      ram := padProg [80, 2]
      reg := [.intV 0, .intV 0, .intV 20, .intV 0, .intV 0, .intV 0, .intV 0, .intV 255] }
    { initCPU with
      reg := [.intV 0, .intV 0, .intV 20, .intV 0, .intV 0, .intV 0, .intV 0, .intV 254]
      ram := (padProg [80, 2]).set 254 (.intV 2)
      pc := 20 }
    { initCPU with
      reg := [.intV 0, .intV 0, .intV 20, .intV 0, .intV 0, .intV 0, .intV 0, .intV 254]
      ram := (padProg [80, 2]).set 254 (.intV 2)
      pc := 20 }
    255 2 20 rfl rfl rfl (by decide) (by decide) (by decide) (by decide) (by decide)
    rfl (by decide) (by decide) (by decide) rfl rfl rfl rfl rfl

/-- C5: `PUSH` with operand register r immediately followed by `POP` with
the same operand register restores both register r and the stack pointer R7
to their pre-PUSH values.  (The case `r = 7` is included: the value pushed
is then the already-decremented SP, and the final increment still lands R7
back on its original value.) -/
theorem push_pop_restores_reg_and_sp (s s1 : CPUState) (a0 a1 sp r : Int) (v : PyVal)
    (hlen : s.reg.length = 8) (hram : s.ram.length = 256)
    (hsp : pyGet s.reg 7 = .ok (.intV sp)) (hsp1 : 1 ≤ sp) (hsp255 : sp ≤ 255)
    (ha0 : pyGet s.ram a0 = .ok (.intV r)) (hr0 : 0 ≤ r) (hr8 : r < 8)
    (hv : pyGet s.reg r = .ok v)
    (hpush : OPS "PUSH" [a0] s = .ok s1)
    (ha1 : pyGet s1.ram a1 = .ok (.intV r)) :
    ∃ s2, OPS "POP" [a1] s1 = .ok s2 ∧
      pyGet s2.reg r = .ok v ∧ pyGet s2.reg 7 = .ok (.intV sp) := by
  have hn7 : normIdx s.reg.length 7 = some 7 := by rw [hlen]; rfl
  have hnsp : normIdx s.ram.length (sp - 1) = some (sp - 1).toNat := by
    rw [hram]; exact normIdx_nonneg (by omega) (by omega)
  have hset7 : pySet s.reg 7 (.intV (sp - 1)) = .ok (s.reg.set 7 (.intV (sp - 1))) :=
    pySet_ok _ _ hn7
  have harg0 : argGet [a0] 0 = .ok a0 := rfl
  have harg1 : argGet [a1] 0 = .ok a1 := rfl
  have hadd : pyAdd (.intV (sp - 1)) (.intV 1) = .ok (.intV sp) := by
    show Except.ok (PyVal.intV (sp - 1 + 1)) = Except.ok (PyVal.intV sp)
    rw [show sp - 1 + 1 = sp from by omega]
  have hget71 : pyGet (s.reg.set 7 (.intV (sp - 1))) 7 = .ok (.intV (sp - 1)) := by
    have h1 : normIdx (s.reg.set 7 (.intV (sp - 1))).length 7 = some 7 := by
      rw [List.length_set, hlen]; rfl
    exact pyGet_of _ h1 (List.getElem?_set_self (by omega))
  by_cases hr7 : r = 7
  · subst hr7
    have hveq : v = .intV sp := Except.ok.inj (hv.symm.trans hsp)
    subst hveq
    have hsetram : pySet s.ram (sp - 1) (.intV (sp - 1)) =
        .ok (s.ram.set (sp - 1).toNat (.intV (sp - 1))) := pySet_ok _ _ hnsp
    have hpush' : OPS "PUSH" [a0] s =
        .ok { s with reg := s.reg.set 7 (.intV (sp - 1)),
                     ram := s.ram.set (sp - 1).toNat (.intV (sp - 1)) } := by
      rw [show OPS "PUSH" [a0] s = OPS_PUSH [a0] s from rfl]
      simp only [OPS_PUSH, hsp, ok_bind, pySub, hset7, harg0, ha0, asInt, hget71, hsetram]
    rw [hpush'] at hpush
    have hs1 : s1 = { s with reg := s.reg.set 7 (.intV (sp - 1)),
                             ram := s.ram.set (sp - 1).toNat (.intV (sp - 1)) } :=
      (Except.ok.inj hpush).symm
    subst hs1
    have ha1' : pyGet (s.ram.set (sp - 1).toNat (.intV (sp - 1))) a1 = .ok (.intV 7) := ha1
    have hramtop : pyGet (s.ram.set (sp - 1).toNat (.intV (sp - 1))) (sp - 1) =
        .ok (.intV (sp - 1)) := by
      have h1 : normIdx (s.ram.set (sp - 1).toNat (.intV (sp - 1))).length (sp - 1) =
          some (sp - 1).toNat := by
        rw [List.length_set]; exact hnsp
      exact pyGet_of _ h1 (List.getElem?_set_self (normIdx_lt hnsp))
    have hn71 : normIdx (s.reg.set 7 (.intV (sp - 1))).length 7 = some 7 := by
      rw [List.length_set, hlen]; rfl
    have hset71 : pySet (s.reg.set 7 (.intV (sp - 1))) 7 (.intV (sp - 1)) =
        .ok ((s.reg.set 7 (.intV (sp - 1))).set 7 (.intV (sp - 1))) := pySet_ok _ _ hn71
    have hget72 : pyGet ((s.reg.set 7 (.intV (sp - 1))).set 7 (.intV (sp - 1))) 7 =
        .ok (.intV (sp - 1)) := by
      have h1 : normIdx ((s.reg.set 7 (.intV (sp - 1))).set 7 (.intV (sp - 1))).length 7 =
          some 7 := by
        rw [List.length_set, List.length_set, hlen]; rfl
      exact pyGet_of _ h1 (List.getElem?_set_self (by simp [hlen]))
    have hn72 : normIdx ((s.reg.set 7 (.intV (sp - 1))).set 7 (.intV (sp - 1))).length 7 =
        some 7 := by
      rw [List.length_set, List.length_set, hlen]; rfl
    have hset72 : pySet ((s.reg.set 7 (.intV (sp - 1))).set 7 (.intV (sp - 1))) 7 (.intV sp) =
        .ok (((s.reg.set 7 (.intV (sp - 1))).set 7 (.intV (sp - 1))).set 7 (.intV sp)) :=
      pySet_ok _ _ hn72
    refine ⟨{ s with
        reg := ((s.reg.set 7 (.intV (sp - 1))).set 7 (.intV (sp - 1))).set 7 (.intV sp)
        ram := s.ram.set (sp - 1).toNat (.intV (sp - 1)) }, ?_, ?_, ?_⟩
    · rw [show OPS "POP" [a1]
          { s with reg := s.reg.set 7 (.intV (sp - 1)),
                   ram := s.ram.set (sp - 1).toNat (.intV (sp - 1)) } =
          OPS_POP [a1]
          { s with reg := s.reg.set 7 (.intV (sp - 1)),
                   ram := s.ram.set (sp - 1).toNat (.intV (sp - 1)) } from rfl]
      simp only [OPS_POP, hget71, ok_bind, asInt, hramtop, harg1, ha1', hset71, hget72,
        hadd, hset72]
    · have h1 : normIdx (((s.reg.set 7 (.intV (sp - 1))).set 7 (.intV (sp - 1))).set 7
          (.intV sp)).length 7 = some 7 := by
        rw [List.length_set, List.length_set, List.length_set, hlen]; rfl
      exact pyGet_of _ h1 (List.getElem?_set_self (by simp [hlen]))
    · have h1 : normIdx (((s.reg.set 7 (.intV (sp - 1))).set 7 (.intV (sp - 1))).set 7
          (.intV sp)).length 7 = some 7 := by
        rw [List.length_set, List.length_set, List.length_set, hlen]; rfl
      exact pyGet_of _ h1 (List.getElem?_set_self (by simp [hlen]))
  · obtain ⟨nr, hnr, hvr⟩ := pyGet_elim hv
    have hnr' : nr = r.toNat := by
      rw [hlen, normIdx_nonneg hr0 (by omega)] at hnr
      exact (Option.some.inj hnr).symm
    subst hnr'
    have hrget : pyGet (s.reg.set 7 (.intV (sp - 1))) r = .ok v := by
      have h1 : normIdx (s.reg.set 7 (.intV (sp - 1))).length r = some r.toNat := by
        rw [List.length_set, hlen]; exact normIdx_nonneg hr0 (by omega)
      have h2 : (s.reg.set 7 (.intV (sp - 1)))[r.toNat]? = some v := by
        rw [List.getElem?_set_ne (by omega : (7 : Nat) ≠ r.toNat)]
        exact hvr
      exact pyGet_of _ h1 h2
    have hsetram : pySet s.ram (sp - 1) v =
        .ok (s.ram.set (sp - 1).toNat v) := pySet_ok _ _ hnsp
    have hpush' : OPS "PUSH" [a0] s =
        .ok { s with reg := s.reg.set 7 (.intV (sp - 1)),
                     ram := s.ram.set (sp - 1).toNat v } := by
      rw [show OPS "PUSH" [a0] s = OPS_PUSH [a0] s from rfl]
      simp only [OPS_PUSH, hsp, ok_bind, pySub, hset7, harg0, ha0, asInt, hrget, hsetram]
    rw [hpush'] at hpush
    have hs1 : s1 = { s with reg := s.reg.set 7 (.intV (sp - 1)),
                             ram := s.ram.set (sp - 1).toNat v } :=
      (Except.ok.inj hpush).symm
    subst hs1
    have ha1' : pyGet (s.ram.set (sp - 1).toNat v) a1 = .ok (.intV r) := ha1
    have hramtop : pyGet (s.ram.set (sp - 1).toNat v) (sp - 1) = .ok v := by
      have h1 : normIdx (s.ram.set (sp - 1).toNat v).length (sp - 1) =
          some (sp - 1).toNat := by
        rw [List.length_set]; exact hnsp
      exact pyGet_of _ h1 (List.getElem?_set_self (normIdx_lt hnsp))
    have hnr1 : normIdx (s.reg.set 7 (.intV (sp - 1))).length r = some r.toNat := by
      rw [List.length_set, hlen]; exact normIdx_nonneg hr0 (by omega)
    have hsetr : pySet (s.reg.set 7 (.intV (sp - 1))) r v =
        .ok ((s.reg.set 7 (.intV (sp - 1))).set r.toNat v) := pySet_ok _ _ hnr1
    have hget72 : pyGet ((s.reg.set 7 (.intV (sp - 1))).set r.toNat v) 7 =
        .ok (.intV (sp - 1)) := by
      have h1 : normIdx ((s.reg.set 7 (.intV (sp - 1))).set r.toNat v).length 7 = some 7 := by
        rw [List.length_set, List.length_set, hlen]; rfl
      have h2 : ((s.reg.set 7 (.intV (sp - 1))).set r.toNat v)[7]? =
          some (.intV (sp - 1)) := by
        rw [List.getElem?_set_ne (by omega : r.toNat ≠ 7)]
        exact List.getElem?_set_self (by omega)
      exact pyGet_of _ h1 h2
    have hn72 : normIdx ((s.reg.set 7 (.intV (sp - 1))).set r.toNat v).length 7 = some 7 := by
      rw [List.length_set, List.length_set, hlen]; rfl
    have hset72 : pySet ((s.reg.set 7 (.intV (sp - 1))).set r.toNat v) 7 (.intV sp) =
        .ok (((s.reg.set 7 (.intV (sp - 1))).set r.toNat v).set 7 (.intV sp)) :=
      pySet_ok _ _ hn72
    refine ⟨{ s with
        reg := ((s.reg.set 7 (.intV (sp - 1))).set r.toNat v).set 7 (.intV sp)
        ram := s.ram.set (sp - 1).toNat v }, ?_, ?_, ?_⟩
    · rw [show OPS "POP" [a1]
          { s with reg := s.reg.set 7 (.intV (sp - 1)),
                   ram := s.ram.set (sp - 1).toNat v } =
          OPS_POP [a1]
          { s with reg := s.reg.set 7 (.intV (sp - 1)),
                   ram := s.ram.set (sp - 1).toNat v } from rfl]
      simp only [OPS_POP, hget71, ok_bind, asInt, hramtop, harg1, ha1', hsetr, hget72,
        hadd, hset72]
    · have h1 : normIdx (((s.reg.set 7 (.intV (sp - 1))).set r.toNat v).set 7
          (.intV sp)).length r = some r.toNat := by
        rw [List.length_set, List.length_set, List.length_set, hlen]
        exact normIdx_nonneg hr0 (by omega)
      have h2 : ((((s.reg.set 7 (.intV (sp - 1))).set r.toNat v).set 7
          (.intV sp)))[r.toNat]? = some v := by
        rw [List.getElem?_set_ne (by omega : (7 : Nat) ≠ r.toNat)]
        exact List.getElem?_set_self (by simp [hlen]; omega)
      exact pyGet_of _ h1 h2
    · have h1 : normIdx (((s.reg.set 7 (.intV (sp - 1))).set r.toNat v).set 7
          (.intV sp)).length 7 = some 7 := by
        rw [List.length_set, List.length_set, List.length_set, hlen]; rfl
      exact pyGet_of _ h1 (List.getElem?_set_self (by simp [hlen]))

/-- Witness for `push_pop_restores_reg_and_sp`: pushing R3 = 99 and popping
it back at SP = 255. -/
theorem push_pop_restores_reg_and_sp_witness :
    ∃ s2, OPS "POP" [1]
        { initCPU with
          reg := [.intV 0, .intV 0, .intV 0, .intV 99, .intV 0, .intV 0, .intV 0,
            .intV 254]
          ram := (padProg [0, 3]).set 254 (.intV 99) } = .ok s2 ∧
      pyGet s2.reg 3 = .ok (.intV 99) ∧ pyGet s2.reg 7 = .ok (.intV 255) :=
  push_pop_restores_reg_and_sp
    { initCPU with
      ram := padProg [0, 3]
      reg := [.intV 0, .intV 0, .intV 0, .intV 99, .intV 0, .intV 0, .intV 0, .intV 255] }
    { initCPU with
      reg := [.intV 0, .intV 0, .intV 0, .intV 99, .intV 0, .intV 0, .intV 0, .intV 254]
      ram := (padProg [0, 3]).set 254 (.intV 99) }
    1 1 255 3 (.intV 99) rfl rfl rfl (by decide) (by decide) rfl (by decide) (by decide)
    rfl rfl rfl

/-- The program `LDI R0,2; LDI R1,1; CMP R0,R1; JGT R2` as loaded bytes. -/
def progJGT : List Int := [130, 0, 2, 130, 1, 1, 167, 0, 1, 87, 2]

/-- C1 (failing evaluation): after `CMP` has stored the Greater-than flag —
as the string "0b10" — into the flags register (first conjunct, state after
the three setup instructions), the claim demands that `JGT` behave exactly
as `JMP`; instead the handler evaluates `flag >> 1` on that string and the
whole run aborts with `TypeError` (second conjunct).  `JLT` crashes the same
way, and `JGE`/`JLE` crash whenever their first equal-bit test is false;
with an integer flag every one of the four crashes inside `int(flag, 2)`. -/
theorem conditional_jump_jgt_type_error :
    (runCount (loadProgram progJGT) 3).toOption.map (fun p => pyGet p.1.reg 4) =
      some (.ok (.strV "0b10")) ∧
    run (loadProgram progJGT) = .error "TypeError" :=
  ⟨rfl, rfl⟩

/-- The program `LDI R0,10; LDI R1,0; DIV R0,R1; LDI R2,42; HLT` as loaded
bytes. -/
def progDiv : List Int := [130, 0, 10, 130, 1, 0, 163, 0, 1, 130, 2, 42, 1]

/-- C2 (failing evaluation): `DIV` with a zero divisor prints the diagnostic
but does not halt the machine: the subsequent `LDI R2,42` still executes and
the run ends only at the explicit `HLT`, after five iterations, with the
diagnostic followed by the halt marker in the output and the operand
registers left unchanged at R0 = 10, R1 = 0. -/
theorem div_by_zero_does_not_halt :
    run (loadProgram progDiv) =
      .ok ({ pc := 12
             ram := padProg progDiv
             reg := [.intV 10, .intV 0, .intV 42, .intV 0, .intV 0, .intV 0, .intV 0,
               .intV 255]
             ir := .intV 1
             output := ["Error: Cannot divide by 0", "    ~    "] }, 5, true) := rfl

/-- C7 (amended): `CPU.run` always terminates; it performs at most
`limit = 99` fetch-decode-execute iterations, and when the loop ends
normally in fewer than 99 iterations it was ended by an `HLT` fetch (an
uncaught Python exception can also abort the loop early, as the
counterexample shows). -/
theorem run_iteration_bound (s t : CPUState) (n : Nat) (b : Bool)
    (h : run s = .ok (t, n, b)) : n ≤ limit ∧ (n < limit → b = true) :=
  runCount_le limit s t n b h

/-- Witness for `run_iteration_bound` at the one-instruction program `HLT`. -/
theorem run_iteration_bound_witness : 1 ≤ limit ∧ (1 < limit → true = true) :=
  run_iteration_bound (loadProgram [1])
    { loadProgram [1] with ir := .intV 1, output := ["    ~    "] } 1 true rfl

/-- C7 (counterexample to the claim as stated): with `JEQ` (opcode 85) as
the very first instruction the flags register still holds the integer 0, so
the first iteration raises `TypeError` and `run` stops — before the
99-iteration bound and although memory contains no `HLT` opcode at all. -/
theorem run_stops_early_without_hlt :
    run (loadProgram [85]) = .error "TypeError" ∧
    ((loadProgram [85]).ram.all fun v => decide (v ≠ .intV 1)) = true :=
  ⟨rfl, rfl⟩

/-- C8: if memory address 0 holds the `HLT` opcode (1), `run` halts on the
very first iteration and the final state keeps every initialization
default: the registers (all 0 with SP = 255), the RAM exactly as loaded,
and `pc = 0`; only the instruction latch `ir` and the console output
change. -/
theorem hlt_first_instruction_halts_immediately (ram0 : List PyVal)
    (hlen : ram0.length = 256) (h0 : ram0[0]? = some (.intV 1)) :
    run { initCPU with ram := ram0 } =
      .ok ({ initCPU with ram := ram0, ir := .intV 1, output := ["    ~    "] }, 1, true) := by
  have hget : pyGet ram0 0 = .ok (.intV 1) := pyGet_of _ (by rw [hlen]; rfl) h0
  have hdec : decodeOp (.intV 1) = some ("HLT", 0) := rfl
  have hstep : step { initCPU with ram := ram0 } =
      .ok (.halted { initCPU with ram := ram0, ir := .intV 1, output := ["    ~    "] }) := by
    simp [step, initCPU, hget, hdec, ok_bind]
  show runCount _ limit = _
  rw [show limit = 98 + 1 from rfl, runCount_succ, hstep]

/-- Witness for `hlt_first_instruction_halts_immediately` on the loaded
one-byte program `[HLT]`. -/
theorem hlt_first_instruction_halts_immediately_witness :
    run { initCPU with ram := padProg [1] } =
      .ok ({ initCPU with ram := padProg [1], ir := .intV 1, output := ["    ~    "] }, 1, true) :=
  hlt_first_instruction_halts_immediately (padProg [1]) rfl rfl

/-- C9: dispatching `JEQ` or `JNE` while the flags register still holds the
integer 0 it was initialized with (no `CMP` has executed) raises
`TypeError`: `int(flag, 2)` rejects a non-string argument, so the machine
crashes instead of jumping or falling through. -/
theorem jeq_jne_before_cmp_raise_type_error (s : CPUState)
    (h : pyGet s.reg 4 = .ok (.intV 0)) :
    OPS "JEQ" [] s = .error "TypeError" ∧ OPS "JNE" [] s = .error "TypeError" := by
  constructor <;> simp [OPS, OPS_JEQ, OPS_JNE, h, pyIntBase2, ok_bind, error_bind]

/-- Witness for `jeq_jne_before_cmp_raise_type_error` on the freshly
initialized machine. -/
theorem jeq_jne_before_cmp_raise_type_error_witness :
    OPS "JEQ" [] initCPU = .error "TypeError" ∧ OPS "JNE" [] initCPU = .error "TypeError" :=
  jeq_jne_before_cmp_raise_type_error initCPU rfl

/-- C10: fetching an `INT` (82) or `IRET` (19) opcode classifies it as a
PC-mutator (bit 4 set, bit 5 clear), so the dispatcher skips the automatic
PC advance while the handler body is `pass`: the step leaves `pc`, the
registers, the RAM and the output untouched, copying only the opcode into
`ir`.  Once `ir` already holds the opcode the state is a strict fixed point,
so the same instruction is refetched on every following iteration until the
step budget is exhausted (`runCount` consumes all its fuel and reports the
limit stop, not a halt). -/
theorem int_iret_leave_state_unchanged (s : CPUState) (v : Int)
    (hfetch : pyGet s.ram s.pc = .ok (.intV v)) (hv : v = 82 ∨ v = 19) :
    step s = .ok (.running { s with ir := .intV v }) ∧
    (s.ir = .intV v → ∀ f : Nat, runCount s f = .ok (s, f, false)) := by
  have hstep : step s = .ok (.running { s with ir := .intV v }) := by
    rcases hv with hv | hv <;> subst hv
    · have hdec : decodeOp (.intV 82) = some ("INT", 9) := rfl
      simp [step, hfetch, hdec, OPS, ok_bind]
    · have hdec : decodeOp (.intV 19) = some ("IRET", 9) := rfl
      simp [step, hfetch, hdec, OPS, ok_bind]
  refine ⟨hstep, fun hir f => ?_⟩
  have hs : ({ s with ir := .intV v } : CPUState) = s := by rw [← hir]
  induction f with
  | zero => rfl
  | succ f ih =>
    rw [runCount_succ, hstep, hs]
    simp only [ih]

/-- Witness for `int_iret_leave_state_unchanged` on the loaded program
`[INT]` with `ir` already latched. -/
theorem int_iret_leave_state_unchanged_witness :
    step { loadProgram [82] with ir := .intV 82 } =
      .ok (.running { { loadProgram [82] with ir := .intV 82 } with ir := .intV 82 }) ∧
    (({ loadProgram [82] with ir := .intV 82 } : CPUState).ir = .intV 82 →
      ∀ f : Nat, runCount { loadProgram [82] with ir := .intV 82 } f =
        .ok ({ loadProgram [82] with ir := .intV 82 }, f, false)) :=
  int_iret_leave_state_unchanged { loadProgram [82] with ir := .intV 82 } 82 rfl (Or.inl rfl)

end LS8
